import Mathlib

/-!
Verification development for the trajectory analysis and navigation engine
of the DBS path-planning repository (src/gui/pathSelection.py).

The floating-point arithmetic of the original program is modelled by exact
real arithmetic; numpy length-3 arrays are modelled by the Vec3 structure.
Line numbers in doc comments refer to src/gui/pathSelection.py.
-/

noncomputable section

/-- A 3-component real vector, modelling the length-3 numpy arrays used for
directions, entry points, targets, checkpoints and voxel dimensions. -/
@[ext]
structure Vec3 where
  x : ℝ
  y : ℝ
  z : ℝ

instance : Zero Vec3 :=
  ⟨⟨0, 0, 0⟩⟩

instance : Add Vec3 :=
  ⟨fun a b => ⟨a.x + b.x, a.y + b.y, a.z + b.z⟩⟩

instance : Sub Vec3 :=
  ⟨fun a b => ⟨a.x - b.x, a.y - b.y, a.z - b.z⟩⟩

instance : SMul ℝ Vec3 :=
  ⟨fun r v => ⟨r * v.x, r * v.y, r * v.z⟩⟩

/-- Euclidean dot product of two 3-vectors. -/
def dot3 (a b : Vec3) : ℝ :=
  a.x * b.x + a.y * b.y + a.z * b.z

/-- Cross product, as computed by np.cross on length-3 arrays. -/
def cross3 (a b : Vec3) : Vec3 :=
  ⟨a.y * b.z - a.z * b.y, a.z * b.x - a.x * b.z, a.x * b.y - a.y * b.x⟩

/-- Euclidean norm, written in the source as np.sqrt of the sum of the three
squared components (for example lines 556-561). -/
def norm3 (v : Vec3) : ℝ :=
  Real.sqrt (v.x ^ 2 + v.y ^ 2 + v.z ^ 2)

/-- Normalized trajectory direction, updateTrajectory lines 638-639:
n = direction divided by the Euclidean norm of direction. -/
def nvec (d : Vec3) : Vec3 :=
  (1 / norm3 d) • d

/-- First reconstruction vector, updateTrajectory lines 641-644.  The source
builds the array (1, 0, -(n.x / n.z)) and divides it by
np.sqrt(1 ** 2 + 1 ** 2 + (-(n.x / n.z)) ** 2); note the second summand of
the divisor is 1 ** 2 although the second component of the array is 0. -/
def vec1 (n : Vec3) : Vec3 :=
  (1 / Real.sqrt (1 ^ 2 + 1 ^ 2 + (-(n.x / n.z)) ^ 2)) • (⟨1, 0, -(n.x / n.z)⟩ : Vec3)

/-- Second reconstruction vector, updateTrajectory line 645:
vector2 = np.cross(n, vector1). -/
def vec2 (n : Vec3) : Vec3 :=
  cross3 n (vec1 n)

/-- Aspect-ratio metric, updateTrajectory lines 651-656: the norm of a basis
vector after element-wise scaling by the voxel dimensions (both factors are
indexed by the same i here, unlike the metric in define_checkpoints). -/
def wnormA (vox v : Vec3) : ℝ :=
  Real.sqrt ((v.x * vox.x) ^ 2 + (v.y * vox.y) ^ 2 + (v.z * vox.z) ^ 2)

/-- The distance metric actually computed inside define_checkpoints
(lines 577-581, 593-602).  The Python list comprehension is
[(vox_dims[j] * (u)) ** 2 for j in range(3)] where u is the whole
3-vector, so each scalar vox_dims[j] multiplies every component of u and
np.sum then adds all nine squared entries.  The result equals
sqrt((vox.x^2 + vox.y^2 + vox.z^2) * (u.x^2 + u.y^2 + u.z^2)), which is not
the per-axis anisotropic norm. -/
def distMetric (vox u : Vec3) : ℝ :=
  Real.sqrt ((vox.x * u.x) ^ 2 + (vox.x * u.y) ^ 2 + (vox.x * u.z) ^ 2 +
    ((vox.y * u.x) ^ 2 + (vox.y * u.y) ^ 2 + (vox.y * u.z) ^ 2) +
    ((vox.z * u.x) ^ 2 + (vox.z * u.y) ^ 2 + (vox.z * u.z) ^ 2))

/-- Sweep start point, define_checkpoints lines 555-563:
start = entry - direction / norm(direction) * 10. -/
def ckStart (entry d : Vec3) : Vec3 :=
  entry - (10 / norm3 d) • d

/-- Adjusted target (the variable named target inside define_checkpoints,
lines 566-572): stop - direction / norm(direction) * 3, where stop is the
nominal target point. -/
def adjTarget (target d : Vec3) : Vec3 :=
  target - (3 / norm3 d) • d

/-- Trajectory vector, define_checkpoints line 575: stop - start, where stop
is the nominal target point (line 564), not the adjusted target. -/
def trajVec (entry target d : Vec3) : Vec3 :=
  target - ckStart entry d

/-- Checkpoint i, define_checkpoints line 592:
checkpoint = start + trajectory_vector * (i / 99). -/
def checkpointAt (entry target d : Vec3) (i : ℕ) : Vec3 :=
  ckStart entry d + ((i : ℝ) / 99) • trajVec entry target d

/-- Total start-to-adjusted-target distance, define_checkpoints lines 577-581. -/
def start2target (vox entry target d : Vec3) : ℝ :=
  distMetric vox (adjTarget target d - ckStart entry d)

/-- Unsigned distance from checkpoint i to the adjusted target,
define_checkpoints lines 593-597. -/
def dist2targetAt (vox entry target d : Vec3) (i : ℕ) : ℝ :=
  distMetric vox (adjTarget target d - checkpointAt entry target d i)

/-- Distance from the sweep start to checkpoint i, define_checkpoints
lines 598-602. -/
def dist2startAt (vox entry target d : Vec3) (i : ℕ) : ℝ :=
  distMetric vox (ckStart entry d - checkpointAt entry target d i)

/-- Stored signed distance-to-target of checkpoint i, define_checkpoints
lines 603-607: the unsigned distance is kept as-is when
dist2start > start2target and negated otherwise. -/
def signedDist2targetAt (vox entry target d : Vec3) (i : ℕ) : ℝ :=
  if start2target vox entry target d < dist2startAt vox entry target d i then
    dist2targetAt vox entry target d i
  else
    -(dist2targetAt vox entry target d i)

/-- The 100 checkpoints of the current trajectory, define_checkpoints
lines 584, 590-592, 616. -/
def trajectoryCheckpoints (entry target d : Vec3) : List Vec3 :=
  (List.range 100).map (checkpointAt entry target d)

/-- The 100 stored signed distance-to-target values, define_checkpoints
lines 585, 617. -/
def trajectoryDist2TargetList (vox entry target d : Vec3) : List ℝ :=
  (List.range 100).map (signedDist2targetAt vox entry target d)

/-- Rounding as performed by np.round followed by int(): round half to even.
np.round returns an integral float and int() of an integral float is exact,
so the composition is exactly the round-half-to-even integer
(define_checkpoints lines 609-614). -/
def npRound (x : ℝ) : ℤ :=
  if x - ⌊x⌋ = 1 / 2 then (if Even ⌊x⌋ then ⌊x⌋ else ⌊x⌋ + 1) else round x

/-- Numpy integer-index semantics on one axis of extent s: an index in
[0, s) is used as-is, an index in [-s, 0) silently wraps to index + s, and
anything else raises IndexError. -/
def axisIdx (s idx : ℤ) : Except String ℤ :=
  if 0 ≤ idx ∧ idx < s then Except.ok idx
  else if -s ≤ idx ∧ idx < 0 then Except.ok (idx + s)
  else Except.error ("IndexError")

/-- Risk-distance lookup for one checkpoint, define_checkpoints
lines 608-614: round each coordinate, truncate to int, and index the
distance map with numpy indexing semantics on each axis. -/
def riskLookup (field : ℤ → ℤ → ℤ → ℝ) (shape : ℤ × ℤ × ℤ) (p : Vec3) :
    Except String ℝ :=
  match axisIdx shape.1 (npRound p.x), axisIdx shape.2.1 (npRound p.y),
      axisIdx shape.2.2 (npRound p.z) with
  | Except.ok a, Except.ok b, Except.ok c => Except.ok (field a b c)
  | _, _, _ => Except.error ("IndexError")

/-- Sequences a list of fallible computations, stopping at the first error;
models a Python loop whose body may raise. -/
def exceptMapList (f : ℕ → Except String ℝ) : List ℕ → Except String (List ℝ)
  | [] => Except.ok []
  | i :: is =>
    match f i with
    | Except.error e => Except.error e
    | Except.ok v =>
      match exceptMapList f is with
      | Except.error e => Except.error e
      | Except.ok vs => Except.ok (v :: vs)

/-- One trajectory candidate row: rows 0, 1, 2 of the numpy object row are
the direction, entry and target vectors and row 3 holds the margin scalar
(updateTrajectory lines 624-630, sortTrajectories lines 506-509). -/
structure Traj where
  direction : Vec3
  entry : Vec3
  target : Vec3
  margin : ℝ

/-- Default trajectory used for out-of-range getD reads. -/
def trajDefault : Traj :=
  ⟨0, 0, 0, 0⟩

/-- The immutable context of the navigation engine: sorted trajectories per
target, voxel dimensions, distance map and its shape. -/
structure Config where
  sortedTrajectories : List (List Traj)
  voxDims : Vec3
  distanceMap : ℤ → ℤ → ℤ → ℝ
  shape : ℤ × ℤ × ℤ

/-- The mutable navigation state of the PathSelection widget: selection
indices, margin and the state derived by updateTrajectory.  View-layer
objects (plots, slices, widgets) are not modelled. -/
structure NavState where
  target_i : ℕ
  trajectory_i : ℕ
  checkpoint_i : ℕ
  margin : ℝ
  margin_pix : ℝ
  current_direction : Vec3
  current_entry : Vec3
  current_target : Vec3
  checkpoints : List Vec3
  dist2targetList : List ℝ
  riskList : List ℝ
  aspect_x : ℝ
  aspect_y : ℝ

/-- define_checkpoints (lines 550-618) as a fallible computation: the
geometric arrays always exist, and the whole call raises IndexError as soon
as one risk lookup is out of bounds.  (On such a raise the partially filled
arrays of the Python object are not modelled, because the exception
propagates out of the transition.) -/
def defineCheckpointsRun (cfg : Config) (entry target d : Vec3) :
    Except String (List Vec3 × List ℝ × List ℝ) :=
  match exceptMapList
      (fun i => riskLookup cfg.distanceMap cfg.shape (checkpointAt entry target d i))
      (List.range 100) with
  | Except.error e => Except.error e
  | Except.ok risks =>
    Except.ok (trajectoryCheckpoints entry target d,
      trajectoryDist2TargetList cfg.voxDims entry target d, risks)

/-- sorted_trajectories[target_i][trajectory_i], updateTrajectory
lines 624-625; returns none exactly when Python raises IndexError. -/
def lookupTraj (cfg : Config) (t j : ℕ) : Option Traj :=
  (cfg.sortedTrajectories.get? t).bind (fun ts => ts.get? j)

/-- updateTrajectory (lines 620-719) on the engine state.  The run returns
the state as left when an exception escapes (second component some error):
the current_* fields are already overwritten before define_checkpoints is
entered.  checkpoint_i is reset to the last index only when initialPass is
true (lines 680-681).  Slices and plot updates are view output and are not
modelled. -/
def updateTrajectoryRun (cfg : Config) (initialPass : Bool) (s : NavState) :
    NavState × Option String :=
  match lookupTraj cfg s.target_i s.trajectory_i with
  | none => (s, some ("IndexError"))
  | some tr =>
    let s1 := { s with current_direction := tr.direction, current_entry := tr.entry,
                       current_target := tr.target }
    match defineCheckpointsRun cfg tr.entry tr.target tr.direction with
    | Except.error e => (s1, some e)
    | Except.ok out =>
      let s2 := { s1 with checkpoints := out.1, dist2targetList := out.2.1,
                          riskList := out.2.2,
                          aspect_y := wnormA cfg.voxDims (vec1 (nvec tr.direction)),
                          aspect_x := wnormA cfg.voxDims (vec2 (nvec tr.direction)) }
      let s3 := if initialPass then { s2 with checkpoint_i := out.1.length - 1 } else s2
      (s3, none)

/-- selectTarget (lines 766-793): stores the new target index, resets the
trajectory index to 0 and re-runs updateTrajectory.  The intermediate
signal-driven updateTrajectory invocation caused by re-populating the
trajectory list widget computes the same state and is elided. -/
def selectTargetRun (cfg : Config) (s : NavState) (i : ℕ) : NavState × Option String :=
  updateTrajectoryRun cfg false { s with target_i := i, trajectory_i := 0 }

/-- selectTrajectory (lines 795-802): stores the new trajectory index with
no validation whatsoever and re-runs updateTrajectory. -/
def selectTrajectoryRun (cfg : Config) (s : NavState) (j : ℕ) : NavState × Option String :=
  updateTrajectoryRun cfg false { s with trajectory_i := j }

/-- hLineDragged (lines 944-951): the margin is read back from the
horizontal InfiniteLine, whose position pyqtgraph clamps to the configured
bounds [0, 10] (initSubplots lines 221-226), and the pixel radius is
recomputed as margin / aspect_x (line 951). -/
def hLineDraggedRun (s : NavState) (req : ℝ) : NavState :=
  { s with margin := max 0 (min req 10),
           margin_pix := max 0 (min req 10) / s.aspect_x }

/-- The index order underlying np.argsort in sortTrajectories (line 511):
ascending by margin value, ties ordered by original index (numpy argsort
yields exactly this order on the inputs at issue; the subsequent [::-1]
reversal is argsortDesc below). -/
def argRel (m : List ℝ) (i j : ℕ) : Prop :=
  m.getD i 0 < m.getD j 0 ∨ (m.getD i 0 = m.getD j 0 ∧ i ≤ j)

instance argRelDecidable (m : List ℝ) : DecidableRel (argRel m) := fun i j => by
  unfold argRel
  infer_instance

instance argRelTotal (m : List ℝ) : IsTotal ℕ (argRel m) := by
  constructor
  intro i j
  rcases lt_trichotomy (m.getD i 0) (m.getD j 0) with h | h | h
  · exact Or.inl (Or.inl h)
  · rcases Nat.le_total i j with hij | hij
    · exact Or.inl (Or.inr ⟨h, hij⟩)
    · exact Or.inr (Or.inr ⟨h.symm, hij⟩)
  · exact Or.inr (Or.inl h)

instance argRelTrans (m : List ℝ) : IsTrans ℕ (argRel m) := by
  constructor
  intro a b c hab hbc
  rcases hab with h1 | ⟨h1, h1'⟩ <;> rcases hbc with h2 | ⟨h2, h2'⟩
  · exact Or.inl (h1.trans h2)
  · exact Or.inl (h2 ▸ h1)
  · exact Or.inl (h1 ▸ h2)
  · exact Or.inr ⟨h1.trans h2, h1'.trans h2'⟩

/-- Stable ascending argsort of a margin list (np.argsort at line 511). -/
def argsort (m : List ℝ) : List ℕ :=
  List.insertionSort (argRel m) (List.range m.length)

/-- idx_list of sortTrajectories line 511: argsort reversed by [::-1]. -/
def argsortDesc (m : List ℝ) : List ℕ :=
  (argsort m).reverse

/-- Sorting of the trajectory list of one target, sortTrajectories lines 504-516:
the margins are collected, argsorted, reversed, and the rows are rearranged
in that index order. -/
def sortOneTarget (ts : List Traj) : List Traj :=
  (argsortDesc (ts.map Traj.margin)).map (fun i => ts.getD i trajDefault)

/-- sortTrajectories (lines 495-518): the candidate list of every target is
rearranged by descending margin. -/
def sortTrajectories (all : List (List Traj)) : List (List Traj) :=
  all.map sortOneTarget

/-- The scan loop of vLineDragged (lines 928-941): walks the distance list
with the running best index opt and best difference m (initialized to 0 and
100 at lines 929-930), updating both on a strictly smaller difference. -/
def seekFrom (q : ℝ) : List ℝ → ℕ → ℕ → ℝ → ℕ × ℝ
  | [], _, opt, m => (opt, m)
  | v :: vs, i, opt, m =>
    if |q - v| < m then seekFrom q vs (i + 1) i (|q - v|)
    else seekFrom q vs (i + 1) opt m

/-- vLineDragged (lines 922-941) reduced to its checkpoint-selection core:
the returned index becomes the new checkpoint_i. -/
def seekCheckpoint (dists : List ℝ) (q : ℝ) : ℕ :=
  (seekFrom q dists 0 0 100).1

/-- Concrete trajectory used in the state-machine scenarios: direction
(0,0,1), entry and target both (0,0,10), margin 1; its 100 checkpoints run
from (0,0,0) to (0,0,10). -/
def trA : Traj :=
  ⟨⟨0, 0, 1⟩, ⟨0, 0, 10⟩, ⟨0, 0, 10⟩, 1⟩

/-- Concrete engine context with one target owning the single trajectory
trA, unit voxel spacing, an all-zero distance map of shape (1, 1, 11). -/
def cfgA : Config :=
  ⟨[[trA]], ⟨1, 1, 1⟩, fun _ _ _ => 0, (1, 1, 11)⟩

/-- Concrete navigation state with checkpoint index 5. -/
def sNav5 : NavState :=
  ⟨0, 0, 5, 3, 3, ⟨0, 0, 1⟩, ⟨0, 0, 10⟩, ⟨0, 0, 10⟩, [], [], [], 1, 1⟩

/-- Trajectory candidates with margins 1, 3, 3 (two tied margins),
distinguished by their entry points. -/
def tA : Traj :=
  ⟨⟨0, 0, 1⟩, ⟨1, 0, 0⟩, 0, 1⟩

/-- Second candidate: margin 3, entry (2,0,0). -/
def tB : Traj :=
  ⟨⟨0, 0, 1⟩, ⟨2, 0, 0⟩, 0, 3⟩

/-- Third candidate: margin 3, entry (3,0,0). -/
def tC : Traj :=
  ⟨⟨0, 0, 1⟩, ⟨3, 0, 0⟩, 0, 3⟩

/-- A 100-entry evenly spaced profile whose spacing (300 mm) exceeds twice
the initial best difference of 100 used by the scan. -/
def cexProfile : List ℝ :=
  (List.range 100).map (fun i : ℕ => -14850 + 300 * (i : ℝ))

@[simp]
theorem Vec3.zero_x : (0 : Vec3).x = 0 :=
  rfl

@[simp]
theorem Vec3.zero_y : (0 : Vec3).y = 0 :=
  rfl

@[simp]
theorem Vec3.zero_z : (0 : Vec3).z = 0 :=
  rfl

@[simp]
theorem Vec3.add_x (a b : Vec3) : (a + b).x = a.x + b.x :=
  rfl

@[simp]
theorem Vec3.add_y (a b : Vec3) : (a + b).y = a.y + b.y :=
  rfl

@[simp]
theorem Vec3.add_z (a b : Vec3) : (a + b).z = a.z + b.z :=
  rfl

@[simp]
theorem Vec3.sub_x (a b : Vec3) : (a - b).x = a.x - b.x :=
  rfl

@[simp]
theorem Vec3.sub_y (a b : Vec3) : (a - b).y = a.y - b.y :=
  rfl

@[simp]
theorem Vec3.sub_z (a b : Vec3) : (a - b).z = a.z - b.z :=
  rfl

@[simp]
theorem Vec3.smul_x (r : ℝ) (v : Vec3) : (r • v).x = r * v.x :=
  rfl

@[simp]
theorem Vec3.smul_y (r : ℝ) (v : Vec3) : (r • v).y = r * v.y :=
  rfl

@[simp]
theorem Vec3.smul_z (r : ℝ) (v : Vec3) : (r • v).z = r * v.z :=
  rfl

theorem trajectoryCheckpoints_getD (entry target d : Vec3) (i : ℕ) (h : i < 100) :
    (trajectoryCheckpoints entry target d).getD i 0 = checkpointAt entry target d i := by
  rw [trajectoryCheckpoints, List.getD_eq_getElem _ _ (by simpa using h)]
  simp

theorem trajectoryDist2TargetList_getD (vox entry target d : Vec3) (i : ℕ) (h : i < 100) :
    (trajectoryDist2TargetList vox entry target d).getD i 0 =
      signedDist2targetAt vox entry target d i := by
  rw [trajectoryDist2TargetList, List.getD_eq_getElem _ _ (by simpa using h)]
  simp

/-- C1 (amended): checkpoint sampling produces exactly 100 checkpoints with
checkpoint i at start + trajectory_vector * (i/99), where
start = entry - normalize(direction) * 10 but
trajectory_vector = target - start with target the NOMINAL target point;
checkpoint 0 equals start, checkpoint 99 equals the nominal target (3 mm
past the adjusted target point), and consecutive checkpoints are evenly
spaced. -/
theorem checkpoints_linear_span (entry target d : Vec3) :
    (trajectoryCheckpoints entry target d).length = 100 ∧
    (trajectoryCheckpoints entry target d).getD 0 0 = ckStart entry d ∧
    (trajectoryCheckpoints entry target d).getD 99 0 = target ∧
    ∀ i, i < 99 →
      (trajectoryCheckpoints entry target d).getD (i + 1) 0 -
          (trajectoryCheckpoints entry target d).getD i 0 =
        ((1 : ℝ) / 99) • trajVec entry target d := by
  refine ⟨by simp [trajectoryCheckpoints], ?_, ?_, ?_⟩
  · rw [trajectoryCheckpoints_getD _ _ _ 0 (by norm_num)]
    ext <;> simp [checkpointAt]
  · rw [trajectoryCheckpoints_getD _ _ _ 99 (by norm_num)]
    ext <;> simp [checkpointAt, trajVec] <;> push_cast <;> ring
  · intro i hi
    rw [trajectoryCheckpoints_getD _ _ _ (i + 1) (by omega),
      trajectoryCheckpoints_getD _ _ _ i (by omega)]
    ext <;> simp [checkpointAt] <;> push_cast <;> ring

/-- C1 witness: the even-spacing clause instantiated at i = 0 for the
scenario direction (0,0,1), entry (0,0,0), target (0,0,50). -/
theorem checkpoints_linear_span_witness :
    (0 : ℕ) < 99 ∧
      (trajectoryCheckpoints ⟨0, 0, 0⟩ ⟨0, 0, 50⟩ ⟨0, 0, 1⟩).getD (0 + 1) 0 -
          (trajectoryCheckpoints ⟨0, 0, 0⟩ ⟨0, 0, 50⟩ ⟨0, 0, 1⟩).getD 0 0 =
        ((1 : ℝ) / 99) • trajVec ⟨0, 0, 0⟩ ⟨0, 0, 50⟩ ⟨0, 0, 1⟩ :=
  ⟨by norm_num, (checkpoints_linear_span ⟨0, 0, 0⟩ ⟨0, 0, 50⟩ ⟨0, 0, 1⟩).2.2.2 0 (by norm_num)⟩

theorem norm3_unit_z : norm3 (⟨0, 0, 1⟩ : Vec3) = 1 := by
  rw [norm3, show ((⟨0, 0, 1⟩ : Vec3).x ^ 2 + (⟨0, 0, 1⟩ : Vec3).y ^ 2 +
    (⟨0, 0, 1⟩ : Vec3).z ^ 2) = 1 by norm_num [Vec3.mk.injEq]]
  exact Real.sqrt_one

/-- C1 counterexample: in the scenario direction (0,0,1), entry (0,0,0),
target (0,0,50), the final checkpoint sits at z = 50 (the nominal target),
not at the adjusted target z = 47 as the claim states. -/
theorem checkpoint99_nominal_cex :
    ((trajectoryCheckpoints ⟨0, 0, 0⟩ ⟨0, 0, 50⟩ ⟨0, 0, 1⟩).getD 99 0).z = 50 ∧
    (adjTarget ⟨0, 0, 50⟩ ⟨0, 0, 1⟩).z = 47 ∧ (50 : ℝ) ≠ 47 := by
  refine ⟨?_, ?_, by norm_num⟩
  · rw [trajectoryCheckpoints_getD _ _ _ 99 (by norm_num)]
    norm_num [checkpointAt, trajVec, ckStart, norm3_unit_z]
  · norm_num [adjTarget, norm3_unit_z]

theorem distMetric_nonneg (vox u : Vec3) : 0 ≤ distMetric vox u :=
  Real.sqrt_nonneg _

/-- C4 (amended): the stored distance-to-target value is negated exactly
when the distance-from-start of the checkpoint does NOT exceed the total
start-to-adjusted-target distance (both measured with the metric the code
computes): samples before or at the adjusted target carry a negative signed
distance and samples strictly past it carry a positive one. -/
theorem signedDist_sign_convention (vox entry target d : Vec3) (i : ℕ) :
    (dist2startAt vox entry target d i ≤ start2target vox entry target d →
      signedDist2targetAt vox entry target d i = -(dist2targetAt vox entry target d i) ∧
        signedDist2targetAt vox entry target d i ≤ 0) ∧
    (start2target vox entry target d < dist2startAt vox entry target d i →
      signedDist2targetAt vox entry target d i = dist2targetAt vox entry target d i ∧
        0 ≤ signedDist2targetAt vox entry target d i) := by
  constructor
  · intro h
    rw [signedDist2targetAt, if_neg (not_lt.mpr h)]
    exact ⟨rfl, neg_nonpos.mpr (distMetric_nonneg _ _)⟩
  · intro h
    rw [signedDist2targetAt, if_pos h]
    exact ⟨rfl, distMetric_nonneg _ _⟩

theorem dist2startAt_zero (vox entry target d : Vec3) :
    dist2startAt vox entry target d 0 = 0 := by
  rw [dist2startAt]
  have h : ckStart entry d - checkpointAt entry target d 0 = 0 := by
    ext <;> simp [checkpointAt]
  rw [h]
  simp [distMetric]

/-- C4 witness: at checkpoint 0 of the scenario trajectory the
distance-from-start (zero) does not exceed the total distance, and the
stored value is indeed the negated unsigned distance. -/
theorem signedDist_sign_convention_witness :
    dist2startAt ⟨1, 1, 1⟩ ⟨0, 0, 0⟩ ⟨0, 0, 50⟩ ⟨0, 0, 1⟩ 0 ≤
        start2target ⟨1, 1, 1⟩ ⟨0, 0, 0⟩ ⟨0, 0, 50⟩ ⟨0, 0, 1⟩ ∧
      signedDist2targetAt ⟨1, 1, 1⟩ ⟨0, 0, 0⟩ ⟨0, 0, 50⟩ ⟨0, 0, 1⟩ 0 =
          -(dist2targetAt ⟨1, 1, 1⟩ ⟨0, 0, 0⟩ ⟨0, 0, 50⟩ ⟨0, 0, 1⟩ 0) ∧
        signedDist2targetAt ⟨1, 1, 1⟩ ⟨0, 0, 0⟩ ⟨0, 0, 50⟩ ⟨0, 0, 1⟩ 0 ≤ 0 := by
  have hle : dist2startAt ⟨1, 1, 1⟩ ⟨0, 0, 0⟩ ⟨0, 0, 50⟩ ⟨0, 0, 1⟩ 0 ≤
      start2target ⟨1, 1, 1⟩ ⟨0, 0, 0⟩ ⟨0, 0, 50⟩ ⟨0, 0, 1⟩ := by
    rw [dist2startAt_zero]
    exact distMetric_nonneg _ _
  exact ⟨hle, (signedDist_sign_convention ⟨1, 1, 1⟩ ⟨0, 0, 0⟩ ⟨0, 0, 50⟩ ⟨0, 0, 1⟩ 0).1 hle⟩

/-- C4 counterexample: checkpoint 0 of the scenario trajectory lies strictly
before the adjusted target (its distance-from-start, zero, does not exceed
the total), yet its stored signed distance is strictly negative - the
opposite of the claim, which places negative values past the target. -/
theorem sign_convention_cex :
    dist2startAt ⟨1, 1, 1⟩ ⟨0, 0, 0⟩ ⟨0, 0, 50⟩ ⟨0, 0, 1⟩ 0 <
        start2target ⟨1, 1, 1⟩ ⟨0, 0, 0⟩ ⟨0, 0, 50⟩ ⟨0, 0, 1⟩ ∧
      signedDist2targetAt ⟨1, 1, 1⟩ ⟨0, 0, 0⟩ ⟨0, 0, 50⟩ ⟨0, 0, 1⟩ 0 < 0 := by
  have hvec : adjTarget ⟨0, 0, 50⟩ ⟨0, 0, 1⟩ - ckStart ⟨0, 0, 0⟩ ⟨0, 0, 1⟩ =
      (⟨0, 0, 57⟩ : Vec3) := by
    ext <;> simp [adjTarget, ckStart, norm3_unit_z] <;> norm_num
  have hcp0 : checkpointAt ⟨0, 0, 0⟩ ⟨0, 0, 50⟩ ⟨0, 0, 1⟩ 0 = ckStart ⟨0, 0, 0⟩ ⟨0, 0, 1⟩ := by
    ext <;> simp [checkpointAt]
  have hs2t : start2target ⟨1, 1, 1⟩ ⟨0, 0, 0⟩ ⟨0, 0, 50⟩ ⟨0, 0, 1⟩ = Real.sqrt 9747 := by
    rw [start2target, hvec]
    norm_num [distMetric]
  have hpos : (0 : ℝ) < Real.sqrt 9747 := Real.sqrt_pos.mpr (by norm_num)
  have hd2t : dist2targetAt ⟨1, 1, 1⟩ ⟨0, 0, 0⟩ ⟨0, 0, 50⟩ ⟨0, 0, 1⟩ 0 = Real.sqrt 9747 := by
    rw [dist2targetAt, hcp0, hvec]
    norm_num [distMetric]
  constructor
  · rw [dist2startAt_zero, hs2t]
    exact hpos
  · have hneg : ¬ (start2target ⟨1, 1, 1⟩ ⟨0, 0, 0⟩ ⟨0, 0, 50⟩ ⟨0, 0, 1⟩ <
        dist2startAt ⟨1, 1, 1⟩ ⟨0, 0, 0⟩ ⟨0, 0, 50⟩ ⟨0, 0, 1⟩ 0) := by
      rw [dist2startAt_zero, hs2t]
      exact not_lt.mpr hpos.le
    rw [signedDist2targetAt, if_neg hneg, hd2t]
    linarith

theorem cross3_dot_left (a b : Vec3) : dot3 (cross3 a b) a = 0 := by
  simp [dot3, cross3]
  ring

theorem cross3_dot_right (a b : Vec3) : dot3 b (cross3 a b) = 0 := by
  simp [dot3, cross3]
  ring

theorem basis_orthogonal (n : Vec3) (hz : n.z ≠ 0) :
    dot3 (vec1 n) n = 0 ∧ dot3 (vec2 n) n = 0 ∧ dot3 (vec1 n) (vec2 n) = 0 := by
  refine ⟨?_, cross3_dot_left n (vec1 n), cross3_dot_right n (vec1 n)⟩
  simp [dot3, vec1]
  field_simp
  ring

theorem nvec_unit_z : nvec (⟨0, 0, 1⟩ : Vec3) = ⟨0, 0, 1⟩ := by
  ext <;> simp [nvec, norm3_unit_z]

theorem vec1_unit_z : vec1 (⟨0, 0, 1⟩ : Vec3) = ⟨1 / Real.sqrt 2, 0, 0⟩ := by
  have h : ((1 : ℝ) ^ 2 + 1 ^ 2 + (-((⟨0, 0, 1⟩ : Vec3).x / (⟨0, 0, 1⟩ : Vec3).z)) ^ 2) = 2 := by
    norm_num
  ext <;> simp [vec1, h] <;> norm_num

/-- C2: evaluated at the failing input direction (0,0,1), the derived basis
is exactly orthogonal, but vector1 has Euclidean norm sqrt(1/2), far from
unit within the 1e-6 tolerance - the divisor on line 643 uses
1 ** 2 + 1 ** 2 + t ** 2 although the vector being normalized is
(1, 0, -t). -/
theorem basis_norm_bug_at_axial :
    dot3 (vec1 (nvec ⟨0, 0, 1⟩)) (nvec ⟨0, 0, 1⟩) = 0 ∧
    dot3 (vec2 (nvec ⟨0, 0, 1⟩)) (nvec ⟨0, 0, 1⟩) = 0 ∧
    dot3 (vec1 (nvec ⟨0, 0, 1⟩)) (vec2 (nvec ⟨0, 0, 1⟩)) = 0 ∧
    norm3 (vec1 (nvec ⟨0, 0, 1⟩)) < 1 - 1 / 1000000 := by
  have h2 : (Real.sqrt 2) ^ 2 = 2 := Real.sq_sqrt (by norm_num)
  rw [nvec_unit_z]
  refine ⟨?_, ?_, ?_, ?_⟩
  · rw [vec1_unit_z]
    simp [dot3]
  · exact cross3_dot_left _ _
  · exact cross3_dot_right _ _
  · rw [vec1_unit_z, norm3]
    have harg : ((⟨1 / Real.sqrt 2, 0, 0⟩ : Vec3).x ^ 2 + (⟨1 / Real.sqrt 2, 0, 0⟩ : Vec3).y ^ 2 +
        (⟨1 / Real.sqrt 2, 0, 0⟩ : Vec3).z ^ 2) = 1 / 2 := by
      show (1 / Real.sqrt 2) ^ 2 + (0 : ℝ) ^ 2 + (0 : ℝ) ^ 2 = 1 / 2
      rw [div_pow, one_pow, h2]
      norm_num
    rw [harg]
    rw [Real.sqrt_lt' (by norm_num : (0 : ℝ) < 1 - 1 / 1000000)]
    norm_num

theorem norm3_unit_x : norm3 (⟨1, 0, 0⟩ : Vec3) = 1 := by
  rw [norm3, show ((⟨1, 0, 0⟩ : Vec3).x ^ 2 + (⟨1, 0, 0⟩ : Vec3).y ^ 2 +
    (⟨1, 0, 0⟩ : Vec3).z ^ 2) = 1 by norm_num]
  exact Real.sqrt_one

theorem nvec_unit_x : nvec (⟨1, 0, 0⟩ : Vec3) = ⟨1, 0, 0⟩ := by
  ext <;> simp [nvec, norm3_unit_x]

/-- C5: for the direction (1,0,0), whose normalized z-component is zero, the
basis construction applies the same unguarded formula (the source computes
n.x / n.z with no case split; in numpy this emits inf/NaN, modelled here by
total division): the resulting vector1 is not even orthogonal to the
direction, so no alternate pivot axis is substituted. -/
theorem degenerate_direction_no_pivot :
    (nvec ⟨1, 0, 0⟩).z = 0 ∧ dot3 (vec1 (nvec ⟨1, 0, 0⟩)) (nvec ⟨1, 0, 0⟩) ≠ 0 := by
  rw [nvec_unit_x]
  constructor
  · rfl
  · have h : vec1 (⟨1, 0, 0⟩ : Vec3) = ⟨1 / Real.sqrt 2, 0, 0⟩ := by
      have harg : ((1 : ℝ) ^ 2 + 1 ^ 2 + (-((⟨1, 0, 0⟩ : Vec3).x / (⟨1, 0, 0⟩ : Vec3).z)) ^ 2) = 2 := by
        norm_num
      ext <;> simp [vec1, harg] <;> norm_num
    rw [h]
    have hs : Real.sqrt 2 ≠ 0 := by
      rw [Real.sqrt_ne_zero' ]
      norm_num
    simp [dot3, hs]

theorem map_getD_range {α : Type} (ts : List α) (d : α) :
    (List.range ts.length).map (fun i => ts.getD i d) = ts := by
  induction ts with
  | nil => simp
  | cons a ts ih =>
    rw [List.length_cons, List.range_succ_eq_map, List.map_cons, List.map_map]
    refine congrArg₂ List.cons rfl ?_
    rw [show ((fun i => (a :: ts).getD i d) ∘ Nat.succ) = (fun i => ts.getD i d) from
      funext fun i => List.getD_cons_succ]
    exact ih

theorem argsort_perm (m : List ℝ) : (argsort m).Perm (List.range m.length) :=
  List.perm_insertionSort _ _

theorem argsort_sorted (m : List ℝ) : (argsort m).Pairwise (argRel m) :=
  List.sorted_insertionSort _ _

theorem argsortDesc_pairwise (m : List ℝ) :
    (argsortDesc m).Pairwise (fun i j => argRel m j i) := by
  rw [argsortDesc, List.pairwise_reverse]
  exact argsort_sorted m

theorem argsortDesc_perm (m : List ℝ) : (argsortDesc m).Perm (List.range m.length) :=
  (List.reverse_perm _).trans (argsort_perm m)

theorem sortOneTarget_perm (ts : List Traj) : (sortOneTarget ts).Perm ts := by
  rw [sortOneTarget]
  have h1 : (argsortDesc (ts.map Traj.margin)).Perm (List.range ts.length) := by
    simpa using argsortDesc_perm (ts.map Traj.margin)
  have h2 := h1.map (fun i => ts.getD i trajDefault)
  rwa [map_getD_range ts trajDefault] at h2

theorem getD_margin (ts : List Traj) (i : ℕ) (h : i < ts.length) :
    (ts.map Traj.margin).getD i 0 = (ts.getD i trajDefault).margin := by
  rw [List.getD_eq_getElem _ _ (by simpa using h), List.getD_eq_getElem _ _ h]
  simp

theorem sortOneTarget_sorted (ts : List Traj) :
    (sortOneTarget ts).Pairwise (fun a b => b.margin ≤ a.margin) := by
  rw [sortOneTarget, List.pairwise_map]
  have hmem : ∀ i ∈ argsortDesc (ts.map Traj.margin), i < ts.length := by
    intro i hi
    have := (argsortDesc_perm (ts.map Traj.margin)).mem_iff.mp hi
    simpa [List.mem_range] using this
  refine (argsortDesc_pairwise (ts.map Traj.margin)).imp_of_mem ?_
  intro i j hi hj hrel
  have hi' := hmem i hi
  have hj' := hmem j hj
  rcases hrel with h | ⟨h, _⟩ <;> rw [getD_margin ts i hi', getD_margin ts j hj'] at h
  · exact h.le
  · exact h.le

/-- C3 (amended): for every per-target list of trajectory candidates the
ranking returns a permutation of the trajectories of that target ordered by
margin descending, but trajectories with equal margins appear in REVERSED
original input order (np.argsort ascending is reversed wholesale by [::-1]):
input margins [1.0, 3.0, 3.0] sort to [3.0, 3.0, 1.0] with the two 3.0
entries swapped relative to their input order. -/
theorem sortTrajectories_spec (all : List (List Traj)) (t : ℕ) (ht : t < all.length) :
    ((sortTrajectories all).getD t []).Perm (all.getD t []) ∧
    ((sortTrajectories all).getD t []).Pairwise (fun a b => b.margin ≤ a.margin) ∧
    (argsortDesc ((all.getD t []).map Traj.margin)).Pairwise
      (fun i j => ((all.getD t []).map Traj.margin).getD j 0 <
          ((all.getD t []).map Traj.margin).getD i 0 ∨
        (((all.getD t []).map Traj.margin).getD j 0 =
            ((all.getD t []).map Traj.margin).getD i 0 ∧ j ≤ i)) := by
  have hst : (sortTrajectories all).getD t [] = sortOneTarget (all.getD t []) := by
    rw [sortTrajectories, List.getD_eq_getElem _ _ (by simpa using ht),
      List.getD_eq_getElem _ _ ht]
    simp
  rw [hst]
  refine ⟨sortOneTarget_perm _, sortOneTarget_sorted _, ?_⟩
  simpa [argRel] using argsortDesc_pairwise ((all.getD t []).map Traj.margin)

/-- C3 witness: the spec applied to the concrete candidate list with
margins [1, 3, 3]. -/
theorem sortTrajectories_spec_witness :
    0 < ([[tA, tB, tC]] : List (List Traj)).length ∧
      ((sortTrajectories [[tA, tB, tC]]).getD 0 []).Perm ([[tA, tB, tC]].getD 0 []) :=
  ⟨by norm_num, (sortTrajectories_spec [[tA, tB, tC]] 0 (by norm_num)).1⟩

theorem argsortDesc_133 :
    argsortDesc ([tA, tB, tC].map Traj.margin) = [2, 1, 0] := by
  have h12 : argRel ([tA, tB, tC].map Traj.margin) 1 2 :=
    Or.inr ⟨rfl, by norm_num⟩
  have h01 : argRel ([tA, tB, tC].map Traj.margin) 0 1 := by
    refine Or.inl ?_
    show (1 : ℝ) < 3
    norm_num
  rw [argsortDesc, argsort]
  rw [show ([tA, tB, tC].map Traj.margin).length = 3 from rfl,
    show List.range 3 = [0, 1, 2] by decide]
  rw [show List.insertionSort (argRel ([tA, tB, tC].map Traj.margin)) [0, 1, 2] =
      List.orderedInsert (argRel ([tA, tB, tC].map Traj.margin)) 0
        (List.orderedInsert (argRel ([tA, tB, tC].map Traj.margin)) 1
          (List.orderedInsert (argRel ([tA, tB, tC].map Traj.margin)) 2
            (List.insertionSort (argRel ([tA, tB, tC].map Traj.margin)) []))) from rfl]
  rw [show List.insertionSort (argRel ([tA, tB, tC].map Traj.margin)) ([] : List ℕ) = [] from rfl]
  rw [show List.orderedInsert (argRel ([tA, tB, tC].map Traj.margin)) 2 [] = [2] from rfl]
  rw [List.orderedInsert_of_le _ _ h12, List.orderedInsert_of_le _ _ h01]
  rfl

/-- C3 counterexample: with input margins [1, 3, 3] the code returns the
tied trajectories in REVERSED input order [tC, tB, tA], not the
stable-order [tB, tC, tA] the claim requires. -/
theorem sort_ties_reversed_cex :
    sortTrajectories [[tA, tB, tC]] = [[tC, tB, tA]] ∧
      ([[tC, tB, tA]] : List (List Traj)) ≠ [[tB, tC, tA]] := by
  constructor
  · rw [show sortTrajectories [[tA, tB, tC]] = [sortOneTarget [tA, tB, tC]] from rfl,
      sortOneTarget, argsortDesc_133]
    rfl
  · intro h
    have h0 := congrArg (fun l => ((l.getD 0 []).getD 0 trajDefault).entry.x) h
    simp only [List.getD_cons_zero] at h0
    have : (3 : ℝ) = 2 := by
      simpa [tB, tC] using h0
    norm_num at this

theorem seekFrom_nil (q : ℝ) (i opt : ℕ) (m : ℝ) : seekFrom q [] i opt m = (opt, m) :=
  rfl

theorem seekFrom_cons (q v : ℝ) (vs : List ℝ) (i opt : ℕ) (m : ℝ) :
    seekFrom q (v :: vs) i opt m =
      if |q - v| < m then seekFrom q vs (i + 1) i (|q - v|)
      else seekFrom q vs (i + 1) opt m :=
  rfl

theorem seekFrom_spec (q : ℝ) (xs : List ℝ) :
    ∀ (i opt : ℕ) (m : ℝ),
      (seekFrom q xs i opt m = (opt, m) ∧ ∀ j, j < xs.length → m ≤ |q - xs.getD j 0|) ∨
      (∃ j, j < xs.length ∧ seekFrom q xs i opt m = (i + j, |q - xs.getD j 0|) ∧
        |q - xs.getD j 0| < m ∧
        (∀ k, k < xs.length → |q - xs.getD j 0| ≤ |q - xs.getD k 0|) ∧
        (∀ k, k < j → |q - xs.getD j 0| < |q - xs.getD k 0|)) := by
  induction xs with
  | nil =>
    intro i opt m
    exact Or.inl ⟨rfl, fun j hj => absurd hj (by simp)⟩
  | cons v vs ih =>
    intro i opt m
    rw [seekFrom_cons]
    by_cases h : |q - v| < m
    · rw [if_pos h]
      rcases ih (i + 1) i (|q - v|) with ⟨heq, hall⟩ | ⟨j, hj, heq, hlt, hmin, hstrict⟩
      · refine Or.inr ⟨0, by simp, ?_, ?_, ?_, ?_⟩
        · simpa using heq
        · simpa using h
        · intro k hk
          cases k with
          | zero => simp
          | succ k =>
            have := hall k (by simpa using hk)
            simpa using this
        · intro k hk
          exact absurd hk (Nat.not_lt_zero k)
      · refine Or.inr ⟨j + 1, by simpa using hj, ?_, ?_, ?_, ?_⟩
        · rw [heq]
          simp only [List.getD_cons_succ]
          congr 1
          omega
        · rw [List.getD_cons_succ]
          exact hlt.trans h
        · intro k hk
          cases k with
          | zero =>
            rw [List.getD_cons_succ, List.getD_cons_zero]
            exact hlt.le
          | succ k =>
            rw [List.getD_cons_succ, List.getD_cons_succ]
            exact hmin k (by simpa using hk)
        · intro k hk
          cases k with
          | zero =>
            rw [List.getD_cons_succ, List.getD_cons_zero]
            exact hlt
          | succ k =>
            rw [List.getD_cons_succ, List.getD_cons_succ]
            exact hstrict k (by omega)
    · rw [if_neg h]
      have hge : m ≤ |q - v| := not_lt.mp h
      rcases ih (i + 1) opt m with ⟨heq, hall⟩ | ⟨j, hj, heq, hlt, hmin, hstrict⟩
      · refine Or.inl ⟨heq, ?_⟩
        intro j hj
        cases j with
        | zero => simpa using hge
        | succ j =>
          rw [List.getD_cons_succ]
          exact hall j (by simpa using hj)
      · refine Or.inr ⟨j + 1, by simpa using hj, ?_, ?_, ?_, ?_⟩
        · rw [heq]
          simp only [List.getD_cons_succ]
          congr 1
          omega
        · rw [List.getD_cons_succ]
          exact hlt
        · intro k hk
          cases k with
          | zero =>
            rw [List.getD_cons_succ, List.getD_cons_zero]
            exact le_trans hlt.le hge
          | succ k =>
            rw [List.getD_cons_succ, List.getD_cons_succ]
            exact hmin k (by simpa using hk)
        · intro k hk
          cases k with
          | zero =>
            rw [List.getD_cons_succ, List.getD_cons_zero]
            exact lt_of_lt_of_le hlt hge
          | succ k =>
            rw [List.getD_cons_succ, List.getD_cons_succ]
            exact hstrict k (by omega)

/-- C9 (amended): whenever at least one stored distance lies within 100 mm
of the query (the best-difference accumulator of the scan starts at 100, which
every realistic profile satisfies for in-range queries), the returned index
is a valid index minimizing the absolute difference to the query, and every
earlier index has a strictly larger difference (first match wins on ties);
in particular querying the exact distance stored at checkpoint k returns
the first checkpoint storing that distance. -/
theorem seekCheckpoint_nearest (dists : List ℝ) (q : ℝ)
    (h : ∃ j, j < dists.length ∧ |q - dists.getD j 0| < 100) :
    seekCheckpoint dists q < dists.length ∧
    (∀ k, k < dists.length →
      |q - dists.getD (seekCheckpoint dists q) 0| ≤ |q - dists.getD k 0|) ∧
    (∀ k, k < seekCheckpoint dists q →
      |q - dists.getD (seekCheckpoint dists q) 0| < |q - dists.getD k 0|) := by
  obtain ⟨j0, hj0, hlt0⟩ := h
  rcases seekFrom_spec q dists 0 0 100 with ⟨_, hall⟩ | ⟨j, hj, heq, _, hmin, hstrict⟩
  · exact absurd (hall j0 hj0) (not_le.mpr hlt0)
  · have h1 : seekCheckpoint dists q = j := by
      rw [seekCheckpoint, heq]
      simp
    rw [h1]
    exact ⟨hj, hmin, hstrict⟩

/-- C9 witness: the seek specification applied to a small concrete profile
and the query 0. -/
theorem seekCheckpoint_nearest_witness :
    (∃ j, j < ([(-2 : ℝ), 0, 3]).length ∧ |(0 : ℝ) - [(-2 : ℝ), 0, 3].getD j 0| < 100) ∧
      seekCheckpoint [(-2 : ℝ), 0, 3] 0 < ([(-2 : ℝ), 0, 3]).length := by
  have h : ∃ j, j < ([(-2 : ℝ), 0, 3]).length ∧ |(0 : ℝ) - [(-2 : ℝ), 0, 3].getD j 0| < 100 := by
    refine ⟨0, by norm_num, ?_⟩
    show |(0 : ℝ) - (-2)| < 100
    norm_num
  exact ⟨h, (seekCheckpoint_nearest _ _ h).1⟩

theorem seek_all_far (dists : List ℝ) (q : ℝ)
    (h : ∀ j, j < dists.length → 100 ≤ |q - dists.getD j 0|) :
    seekCheckpoint dists q = 0 := by
  rcases seekFrom_spec q dists 0 0 100 with ⟨heq, _⟩ | ⟨j, hj, _, hlt, _, _⟩
  · rw [seekCheckpoint, heq]
  · exact absurd (h j hj) (not_le.mpr hlt)

theorem cexProfile_getD (i : ℕ) (h : i < 100) :
    cexProfile.getD i 0 = -14850 + 300 * (i : ℝ) := by
  rw [cexProfile, List.getD_eq_getElem _ _ (by simpa using h)]
  rw [List.getElem_map, List.getElem_range]

theorem cexProfile_far : ∀ j, j < cexProfile.length → 100 ≤ |(0 : ℝ) - cexProfile.getD j 0| := by
  intro j hj
  have hj' : j < 100 := by simpa [cexProfile] using hj
  rw [cexProfile_getD j hj']
  rcases le_or_lt j 49 with h | h
  · have hc : (j : ℝ) ≤ 49 := by exact_mod_cast h
    rw [abs_of_nonneg (by linarith)]
    linarith
  · have hc : (50 : ℝ) ≤ (j : ℝ) := by exact_mod_cast h
    rw [abs_of_nonpos (by linarith)]
    linarith

/-- C9 counterexample: on the 100-entry evenly spaced profile with 300 mm
spacing, the query 0 lies inside the range of the profile but every stored
distance differs from it by at least 150, so the accumulator of the scan
(initialized to 100) never updates and index 0 is returned even though
index 49 is strictly closer. -/
theorem seek_min_diff_cex :
    seekCheckpoint cexProfile 0 = 0 ∧
      |(0 : ℝ) - cexProfile.getD 49 0| < |(0 : ℝ) - cexProfile.getD 0 0| ∧
      cexProfile.getD 0 0 ≤ 0 ∧ (0 : ℝ) ≤ cexProfile.getD 99 0 := by
  refine ⟨seek_all_far _ _ cexProfile_far, ?_, ?_, ?_⟩
  · rw [cexProfile_getD 49 (by norm_num), cexProfile_getD 0 (by norm_num)]
    rw [show (0 : ℝ) - (-14850 + 300 * ((49 : ℕ) : ℝ)) = 150 by push_cast; ring,
      show (0 : ℝ) - (-14850 + 300 * ((0 : ℕ) : ℝ)) = 14850 by push_cast; ring]
    rw [abs_of_nonneg (by norm_num : (0 : ℝ) ≤ 150),
      abs_of_nonneg (by norm_num : (0 : ℝ) ≤ 14850)]
    norm_num
  · rw [cexProfile_getD 0 (by norm_num)]
    push_cast
    norm_num
  · rw [cexProfile_getD 99 (by norm_num)]
    push_cast
    norm_num

theorem npRound_int (n : ℤ) : npRound ((n : ℝ)) = n := by
  rw [npRound, Int.floor_intCast, if_neg (by norm_num)]
  exact round_intCast n

theorem floor_le_npRound (x : ℝ) : ⌊x⌋ ≤ npRound x := by
  rw [npRound]
  split_ifs with h1 h2
  · exact le_refl _
  · omega
  · rw [round_eq]
    exact Int.floor_le_floor (by linarith)

theorem npRound_le_floor_add_one (x : ℝ) : npRound x ≤ ⌊x⌋ + 1 := by
  rw [npRound]
  split_ifs with h1 h2
  · omega
  · omega
  · rw [round_eq]
    have h3 : ⌊x + 1 / 2⌋ ≤ ⌊x + 1⌋ := Int.floor_le_floor (by linarith)
    rwa [Int.floor_add_one] at h3

theorem npRound_nonneg (x : ℝ) (h : 0 ≤ x) : 0 ≤ npRound x := by
  have h0 : (0 : ℤ) ≤ ⌊x⌋ := Int.le_floor.mpr (by simpa using h)
  exact le_trans h0 (floor_le_npRound x)

theorem npRound_le_of_le (x : ℝ) (b : ℤ) (h : x ≤ (b : ℝ)) : npRound x ≤ b := by
  have hfb : ⌊x⌋ ≤ b := by
    have h1 := Int.floor_le_floor h
    simpa using h1
  rcases lt_or_eq_of_le hfb with hf | hf
  · have h2 := npRound_le_floor_add_one x
    omega
  · have hbx : (b : ℝ) ≤ x := by
      rw [← hf]
      exact Int.floor_le x
    rw [le_antisymm h hbx, npRound_int]

theorem riskLookup_err1 (field : ℤ → ℤ → ℤ → ℝ) (shape : ℤ × ℤ × ℤ) (p : Vec3)
    (h : axisIdx shape.1 (npRound p.x) = Except.error ("IndexError")) :
    riskLookup field shape p = Except.error ("IndexError") := by
  rw [riskLookup, h]

theorem riskLookup_cases (field : ℤ → ℤ → ℤ → ℝ) (s1 s2 s3 : ℤ) (p : Vec3) :
    ((0 ≤ npRound p.x ∧ npRound p.x < s1) → (0 ≤ npRound p.y ∧ npRound p.y < s2) →
      (0 ≤ npRound p.z ∧ npRound p.z < s3) →
      riskLookup field (s1, s2, s3) p =
        Except.ok (field (npRound p.x) (npRound p.y) (npRound p.z))) ∧
    ((-s1 ≤ npRound p.x ∧ npRound p.x < 0) → (0 ≤ npRound p.y ∧ npRound p.y < s2) →
      (0 ≤ npRound p.z ∧ npRound p.z < s3) →
      riskLookup field (s1, s2, s3) p =
        Except.ok (field (npRound p.x + s1) (npRound p.y) (npRound p.z))) ∧
    ((npRound p.x < -s1 ∨ s1 ≤ npRound p.x) →
      riskLookup field (s1, s2, s3) p = Except.error ("IndexError")) := by
  refine ⟨?_, ?_, ?_⟩
  · intro hx hy hz
    have hax : axisIdx s1 (npRound p.x) = Except.ok (npRound p.x) := by
      rw [axisIdx, if_pos hx]
    have hay : axisIdx s2 (npRound p.y) = Except.ok (npRound p.y) := by
      rw [axisIdx, if_pos hy]
    have haz : axisIdx s3 (npRound p.z) = Except.ok (npRound p.z) := by
      rw [axisIdx, if_pos hz]
    rw [riskLookup]
    rw [show ((s1, s2, s3) : ℤ × ℤ × ℤ).1 = s1 from rfl,
      show ((s1, s2, s3) : ℤ × ℤ × ℤ).2.1 = s2 from rfl,
      show ((s1, s2, s3) : ℤ × ℤ × ℤ).2.2 = s3 from rfl, hax, hay, haz]
  · intro hx hy hz
    have hax : axisIdx s1 (npRound p.x) = Except.ok (npRound p.x + s1) := by
      rw [axisIdx, if_neg (by omega), if_pos hx]
    have hay : axisIdx s2 (npRound p.y) = Except.ok (npRound p.y) := by
      rw [axisIdx, if_pos hy]
    have haz : axisIdx s3 (npRound p.z) = Except.ok (npRound p.z) := by
      rw [axisIdx, if_pos hz]
    rw [riskLookup]
    rw [show ((s1, s2, s3) : ℤ × ℤ × ℤ).1 = s1 from rfl,
      show ((s1, s2, s3) : ℤ × ℤ × ℤ).2.1 = s2 from rfl,
      show ((s1, s2, s3) : ℤ × ℤ × ℤ).2.2 = s3 from rfl, hax, hay, haz]
  · intro hx
    refine riskLookup_err1 field (s1, s2, s3) p ?_
    rw [show ((s1, s2, s3) : ℤ × ℤ × ℤ).1 = s1 from rfl]
    rw [axisIdx, if_neg (by omega), if_neg (by omega)]

/-- C7 (amended): the risk-distance of a checkpoint is read by rounding each
coordinate to the nearest voxel (half to even), truncating to int and
indexing the distance field.  A rounded index at or beyond the shape, or
below -shape, is a fatal IndexError surfaced to the caller, and in-bounds
indices return the field value at that index; but a NEGATIVE index in
[-shape, -1] is NOT an error: numpy silently wraps it and the value at
index + shape is returned. -/
theorem riskLookup_spec (field : ℤ → ℤ → ℤ → ℝ) (s1 s2 s3 : ℤ) (p : Vec3) :
    ((0 ≤ npRound p.x ∧ npRound p.x < s1) → (0 ≤ npRound p.y ∧ npRound p.y < s2) →
      (0 ≤ npRound p.z ∧ npRound p.z < s3) →
      riskLookup field (s1, s2, s3) p =
        Except.ok (field (npRound p.x) (npRound p.y) (npRound p.z))) ∧
    ((-s1 ≤ npRound p.x ∧ npRound p.x < 0) → (0 ≤ npRound p.y ∧ npRound p.y < s2) →
      (0 ≤ npRound p.z ∧ npRound p.z < s3) →
      riskLookup field (s1, s2, s3) p =
        Except.ok (field (npRound p.x + s1) (npRound p.y) (npRound p.z))) ∧
    ((npRound p.x < -s1 ∨ s1 ≤ npRound p.x) →
      riskLookup field (s1, s2, s3) p = Except.error ("IndexError")) :=
  riskLookup_cases field s1 s2 s3 p

theorem npRound_two_fifths : npRound ((2 : ℝ) / 5) = 0 := by
  have hf : ⌊(2 : ℝ) / 5⌋ = 0 := by
    rw [Int.floor_eq_iff]
    norm_num
  rw [npRound, hf, if_neg (by norm_num), round_eq,
    show (2 : ℝ) / 5 + 1 / 2 = 9 / 10 by norm_num, Int.floor_eq_iff]
  norm_num

theorem npRound_three_fifths : npRound ((3 : ℝ) / 5) = 1 := by
  have hf : ⌊(3 : ℝ) / 5⌋ = 0 := by
    rw [Int.floor_eq_iff]
    norm_num
  rw [npRound, hf, if_neg (by norm_num), round_eq,
    show (3 : ℝ) / 5 + 1 / 2 = 11 / 10 by norm_num, Int.floor_eq_iff]
  norm_num

theorem npRound_five_halves : npRound ((5 : ℝ) / 2) = 2 := by
  have hf : ⌊(5 : ℝ) / 2⌋ = 2 := by
    rw [Int.floor_eq_iff]
    norm_num
  rw [npRound, hf, if_pos (by norm_num), if_pos (by decide)]

theorem npRound_neg_one : npRound ((-1 : ℝ)) = -1 := by
  have h := npRound_int (-1)
  simpa using h

/-- C7 witness: a checkpoint at (0.4, 0.6, 2.5) in a field of shape (3,3,3)
rounds (half to even) to the in-bounds index (0, 1, 2) and the lookup
returns the field value there. -/
theorem riskLookup_spec_witness :
    ((0 ≤ npRound ((⟨2 / 5, 3 / 5, 5 / 2⟩ : Vec3)).x ∧
        npRound ((⟨2 / 5, 3 / 5, 5 / 2⟩ : Vec3)).x < 3) ∧
      (0 ≤ npRound ((⟨2 / 5, 3 / 5, 5 / 2⟩ : Vec3)).y ∧
        npRound ((⟨2 / 5, 3 / 5, 5 / 2⟩ : Vec3)).y < 3) ∧
      (0 ≤ npRound ((⟨2 / 5, 3 / 5, 5 / 2⟩ : Vec3)).z ∧
        npRound ((⟨2 / 5, 3 / 5, 5 / 2⟩ : Vec3)).z < 3)) ∧
    riskLookup (fun a b c => ((a : ℝ) + 10 * b + 100 * c)) (3, 3, 3) ⟨2 / 5, 3 / 5, 5 / 2⟩ =
      Except.ok (((npRound ((⟨2 / 5, 3 / 5, 5 / 2⟩ : Vec3)).x : ℝ)) +
        10 * (npRound ((⟨2 / 5, 3 / 5, 5 / 2⟩ : Vec3)).y : ℝ) +
        100 * (npRound ((⟨2 / 5, 3 / 5, 5 / 2⟩ : Vec3)).z : ℝ)) := by
  have hx : npRound ((⟨2 / 5, 3 / 5, 5 / 2⟩ : Vec3)).x = 0 := npRound_two_fifths
  have hy : npRound ((⟨2 / 5, 3 / 5, 5 / 2⟩ : Vec3)).y = 1 := npRound_three_fifths
  have hz : npRound ((⟨2 / 5, 3 / 5, 5 / 2⟩ : Vec3)).z = 2 := npRound_five_halves
  have h1 : 0 ≤ npRound ((⟨2 / 5, 3 / 5, 5 / 2⟩ : Vec3)).x ∧
      npRound ((⟨2 / 5, 3 / 5, 5 / 2⟩ : Vec3)).x < 3 := by omega
  have h2 : 0 ≤ npRound ((⟨2 / 5, 3 / 5, 5 / 2⟩ : Vec3)).y ∧
      npRound ((⟨2 / 5, 3 / 5, 5 / 2⟩ : Vec3)).y < 3 := by omega
  have h3 : 0 ≤ npRound ((⟨2 / 5, 3 / 5, 5 / 2⟩ : Vec3)).z ∧
      npRound ((⟨2 / 5, 3 / 5, 5 / 2⟩ : Vec3)).z < 3 := by omega
  exact ⟨⟨h1, h2, h3⟩,
    (riskLookup_spec (fun a b c => ((a : ℝ) + 10 * b + 100 * c)) 3 3 3
      ⟨2 / 5, 3 / 5, 5 / 2⟩).1 h1 h2 h3⟩

/-- C7 counterexample: the checkpoint (-1, 0, 0) in a field of shape
(2, 2, 2) has a negative rounded x-index, yet the lookup silently returns
the field value at the wrapped index (1, 0, 0) instead of the fatal error
the claim requires for any negative coordinate. -/
theorem riskLookup_negative_wrap_cex :
    riskLookup (fun a b c => ((a : ℝ) + 10 * b + 100 * c)) (2, 2, 2) ⟨-1, 0, 0⟩ =
        Except.ok 1 ∧
      npRound ((⟨-1, 0, 0⟩ : Vec3)).x < 0 := by
  have hx : npRound ((⟨-1, 0, 0⟩ : Vec3)).x = -1 := npRound_neg_one
  have h0 : npRound ((0 : ℝ)) = 0 := by
    have h := npRound_int 0
    simpa using h
  constructor
  · have h1 : -2 ≤ npRound ((⟨-1, 0, 0⟩ : Vec3)).x ∧ npRound ((⟨-1, 0, 0⟩ : Vec3)).x < 0 := by
      omega
    have h2 : 0 ≤ npRound ((⟨-1, 0, 0⟩ : Vec3)).y ∧ npRound ((⟨-1, 0, 0⟩ : Vec3)).y < 2 := by
      have : npRound ((⟨-1, 0, 0⟩ : Vec3)).y = 0 := h0
      omega
    have h3 : 0 ≤ npRound ((⟨-1, 0, 0⟩ : Vec3)).z ∧ npRound ((⟨-1, 0, 0⟩ : Vec3)).z < 2 := by
      have : npRound ((⟨-1, 0, 0⟩ : Vec3)).z = 0 := h0
      omega
    have hrun := (riskLookup_cases (fun a b c => ((a : ℝ) + 10 * b + 100 * c)) 2 2 2
      ⟨-1, 0, 0⟩).2.1 h1 h2 h3
    rw [hrun, hx]
    norm_num [h0]
  · omega

/-- C10: for every requested margin value the drag path of set_margin
clamps the stored margin to the configured interval [0, 10] (the h-line
bounds; out-of-range requests are silently clamped, no error is surfaced)
and recomputes the pixel radius as the stored margin divided by the current
aspect_x; all selection indices are untouched. -/
theorem set_margin_clamps (s : NavState) (mm : ℝ) :
    (0 ≤ (hLineDraggedRun s mm).margin ∧ (hLineDraggedRun s mm).margin ≤ 10) ∧
    (0 ≤ mm → mm ≤ 10 → (hLineDraggedRun s mm).margin = mm) ∧
    (mm < 0 → (hLineDraggedRun s mm).margin = 0) ∧
    (10 < mm → (hLineDraggedRun s mm).margin = 10) ∧
    (hLineDraggedRun s mm).margin_pix = (hLineDraggedRun s mm).margin / s.aspect_x ∧
    (hLineDraggedRun s mm).aspect_x = s.aspect_x ∧
    (hLineDraggedRun s mm).target_i = s.target_i ∧
    (hLineDraggedRun s mm).trajectory_i = s.trajectory_i ∧
    (hLineDraggedRun s mm).checkpoint_i = s.checkpoint_i := by
  refine ⟨⟨le_max_left 0 _, max_le (by norm_num) (min_le_right _ _)⟩, ?_, ?_, ?_,
    rfl, rfl, rfl, rfl, rfl⟩
  · intro h1 h2
    show max 0 (min mm 10) = mm
    rw [min_eq_left h2, max_eq_right h1]
  · intro h
    show max 0 (min mm 10) = 0
    rw [min_eq_left (by linarith), max_eq_left (by linarith)]
  · intro h
    show max 0 (min mm 10) = 10
    rw [min_eq_right (by linarith), max_eq_right (by norm_num)]

/-- C10 witness: requesting margin 15 stores the clamped value 10. -/
theorem set_margin_clamps_witness :
    (10 : ℝ) < 15 ∧ (hLineDraggedRun sNav5 15).margin = 10 :=
  ⟨by norm_num, (set_margin_clamps sNav5 15).2.2.2.1 (by norm_num)⟩

/-- C6: selectTrajectory performs no range validation: called with index 1
when the current target owns a single trajectory, it stores the invalid
index and the subsequent re-derivation raises IndexError, leaving the
mutated trajectory index observable - the state is NOT left as it was. -/
theorem select_trajectory_oob_mutates :
    (selectTrajectoryRun cfgA sNav5 1).2 = some ("IndexError") ∧
    (selectTrajectoryRun cfgA sNav5 1).1.trajectory_i = 1 ∧
    (selectTrajectoryRun cfgA sNav5 1).1 ≠ sNav5 := by
  have hrun : selectTrajectoryRun cfgA sNav5 1 =
      ({ sNav5 with trajectory_i := 1 }, some ("IndexError")) := rfl
  refine ⟨by rw [hrun], by rw [hrun], ?_⟩
  rw [hrun]
  intro h
  have h1 := congrArg NavState.trajectory_i h
  simp [sNav5] at h1

theorem defineCheckpointsRun_ok_inv (cfg : Config) (e t d : Vec3)
    (out : List Vec3 × List ℝ × List ℝ)
    (h : defineCheckpointsRun cfg e t d = Except.ok out) :
    out.1 = trajectoryCheckpoints e t d ∧
    out.2.1 = trajectoryDist2TargetList cfg.voxDims e t d := by
  rw [defineCheckpointsRun] at h
  cases hm : exceptMapList
      (fun i => riskLookup cfg.distanceMap cfg.shape (checkpointAt e t d i))
      (List.range 100) with
  | error e' =>
    rw [hm] at h
    exact absurd h (by simp)
  | ok risks =>
    rw [hm] at h
    simp only [Except.ok.injEq] at h
    rw [← h]
    exact ⟨rfl, rfl⟩

theorem updateTrajectoryRun_ok_inv (cfg : Config) (s1 s' : NavState)
    (h : updateTrajectoryRun cfg false s1 = (s', none)) :
    ∃ tr out, lookupTraj cfg s1.target_i s1.trajectory_i = some tr ∧
      defineCheckpointsRun cfg tr.entry tr.target tr.direction = Except.ok out ∧
      s' = { s1 with current_direction := tr.direction, current_entry := tr.entry,
                     current_target := tr.target, checkpoints := out.1,
                     dist2targetList := out.2.1, riskList := out.2.2,
                     aspect_y := wnormA cfg.voxDims (vec1 (nvec tr.direction)),
                     aspect_x := wnormA cfg.voxDims (vec2 (nvec tr.direction)) } := by
  rw [updateTrajectoryRun] at h
  cases hl : lookupTraj cfg s1.target_i s1.trajectory_i with
  | none =>
    rw [hl] at h
    have h2 := congrArg Prod.snd h
    exact absurd h2 (by simp)
  | some tr =>
    rw [hl] at h
    dsimp only at h
    cases hd : defineCheckpointsRun cfg tr.entry tr.target tr.direction with
    | error e =>
      rw [hd] at h
      have h2 := congrArg Prod.snd h
      exact absurd h2 (by simp)
    | ok out =>
      rw [hd] at h
      have h2 := congrArg Prod.fst h
      exact ⟨tr, out, rfl, hd, h2.symm⟩

/-- C8 (amended): for every successful select_target(i) transition the new
state has target index i, trajectory index reset to 0, basis and
checkpoints re-derived from the sorted pair (i, 0) - but checkpoint_index
is left exactly as it was (it is set to the last index only during the
initial startup pass, updateTrajectory lines 680-681). -/
theorem select_target_spec (cfg : Config) (s : NavState) (i : ℕ) (s' : NavState)
    (h : selectTargetRun cfg s i = (s', none)) :
    s'.target_i = i ∧ s'.trajectory_i = 0 ∧ s'.checkpoint_i = s.checkpoint_i ∧
    s'.margin = s.margin ∧
    ∃ tr, lookupTraj cfg i 0 = some tr ∧
      s'.current_direction = tr.direction ∧ s'.current_entry = tr.entry ∧
      s'.current_target = tr.target ∧
      s'.checkpoints = trajectoryCheckpoints tr.entry tr.target tr.direction ∧
      s'.dist2targetList = trajectoryDist2TargetList cfg.voxDims tr.entry tr.target tr.direction ∧
      s'.aspect_x = wnormA cfg.voxDims (vec2 (nvec tr.direction)) ∧
      s'.aspect_y = wnormA cfg.voxDims (vec1 (nvec tr.direction)) := by
  rw [selectTargetRun] at h
  obtain ⟨tr, out, hl, hd, hs⟩ := updateTrajectoryRun_ok_inv cfg _ s' h
  obtain ⟨hc, hdist⟩ := defineCheckpointsRun_ok_inv cfg tr.entry tr.target tr.direction out hd
  subst hs
  exact ⟨rfl, rfl, rfl, rfl, tr, hl, rfl, rfl, rfl, hc, hdist, rfl, rfl⟩

theorem checkpointAt_trA (i : ℕ) :
    checkpointAt (⟨0, 0, 10⟩ : Vec3) (⟨0, 0, 10⟩ : Vec3) (⟨0, 0, 1⟩ : Vec3) i =
      ⟨0, 0, (i : ℝ) / 99 * 10⟩ := by
  ext <;> simp [checkpointAt, ckStart, trajVec, norm3_unit_z] <;> ring

theorem riskLookup_cfgA (p : Vec3) (hx : p.x = 0) (hy : p.y = 0)
    (h0 : 0 ≤ p.z) (h10 : p.z ≤ 10) :
    riskLookup cfgA.distanceMap cfgA.shape p = Except.ok 0 := by
  have hxr : npRound p.x = 0 := by
    rw [hx]
    have h := npRound_int 0
    simpa using h
  have hyr : npRound p.y = 0 := by
    rw [hy]
    have h := npRound_int 0
    simpa using h
  have hzn : 0 ≤ npRound p.z := npRound_nonneg _ h0
  have hzl : npRound p.z ≤ 10 := npRound_le_of_le _ 10 (by exact_mod_cast h10)
  have h := (riskLookup_cases cfgA.distanceMap 1 1 11 p).1 (by omega) (by omega) (by omega)
  rw [show cfgA.shape = ((1 : ℤ), (1 : ℤ), (11 : ℤ)) from rfl, h]
  rfl

theorem exceptMapList_ok (f : ℕ → Except String ℝ) (g : ℕ → ℝ) :
    ∀ l : List ℕ, (∀ i ∈ l, f i = Except.ok (g i)) →
      exceptMapList f l = Except.ok (l.map g) := by
  intro l
  induction l with
  | nil => intro _; rfl
  | cons a l ih =>
    intro h
    have ha := h a (List.mem_cons_self a l)
    have hl := ih (fun i hi => h i (List.mem_cons_of_mem a hi))
    rw [exceptMapList, ha, hl]
    rfl

theorem defineCheckpointsRun_cfgA :
    defineCheckpointsRun cfgA (⟨0, 0, 10⟩ : Vec3) (⟨0, 0, 10⟩ : Vec3) (⟨0, 0, 1⟩ : Vec3) =
      Except.ok (trajectoryCheckpoints ⟨0, 0, 10⟩ ⟨0, 0, 10⟩ ⟨0, 0, 1⟩,
        trajectoryDist2TargetList cfgA.voxDims ⟨0, 0, 10⟩ ⟨0, 0, 10⟩ ⟨0, 0, 1⟩,
        (List.range 100).map (fun _ => (0 : ℝ))) := by
  have hall : ∀ i ∈ List.range 100,
      riskLookup cfgA.distanceMap cfgA.shape
          (checkpointAt ⟨0, 0, 10⟩ ⟨0, 0, 10⟩ ⟨0, 0, 1⟩ i) =
        Except.ok ((fun _ => (0 : ℝ)) i) := by
    intro i hi
    have hi' : i < 100 := List.mem_range.mp hi
    rw [checkpointAt_trA i]
    refine riskLookup_cfgA _ rfl rfl ?_ ?_
    · show 0 ≤ (i : ℝ) / 99 * 10
      positivity
    · show (i : ℝ) / 99 * 10 ≤ 10
      have hle : (i : ℝ) ≤ 99 := by exact_mod_cast (by omega : i ≤ 99)
      rw [div_mul_eq_mul_div, div_le_iff (by norm_num : (0 : ℝ) < 99)]
      linarith
  rw [defineCheckpointsRun, exceptMapList_ok _ _ (List.range 100) hall]

theorem updateTrajectoryRun_ok_fwd (cfg : Config) (s1 : NavState) (tr : Traj)
    (out : List Vec3 × List ℝ × List ℝ)
    (h1 : lookupTraj cfg s1.target_i s1.trajectory_i = some tr)
    (h2 : defineCheckpointsRun cfg tr.entry tr.target tr.direction = Except.ok out) :
    (updateTrajectoryRun cfg false s1).2 = none := by
  rw [updateTrajectoryRun, h1]
  dsimp only
  rw [h2]

theorem selectTarget_cfgA_ok : (selectTargetRun cfgA sNav5 0).2 = none := by
  rw [selectTargetRun]
  exact updateTrajectoryRun_ok_fwd cfgA _ trA _ rfl defineCheckpointsRun_cfgA

/-- C8 witness: a concrete successful select_target(0) run on a state with
checkpoint index 5; the specification applies and the checkpoint index is
preserved. -/
theorem select_target_spec_witness :
    selectTargetRun cfgA sNav5 0 = ((selectTargetRun cfgA sNav5 0).1, none) ∧
      (selectTargetRun cfgA sNav5 0).1.checkpoint_i = sNav5.checkpoint_i := by
  have hn : (selectTargetRun cfgA sNav5 0).2 = none := selectTarget_cfgA_ok
  have hpair : selectTargetRun cfgA sNav5 0 = ((selectTargetRun cfgA sNav5 0).1, none) := by
    rw [← hn]
  exact ⟨hpair, (select_target_spec cfgA sNav5 0 _ hpair).2.2.1⟩

/-- C8 counterexample: the same successful select_target(0) run leaves
checkpoint_i at 5 even though the new checkpoint sequence has 100 entries,
so it is NOT reset to the last index 99 as the claim states. -/
theorem select_target_keeps_checkpoint_cex :
    (selectTargetRun cfgA sNav5 0).2 = none ∧
      (selectTargetRun cfgA sNav5 0).1.checkpoint_i = 5 ∧
      (selectTargetRun cfgA sNav5 0).1.checkpoints.length = 100 ∧ (5 : ℕ) ≠ 99 := by
  have hn : (selectTargetRun cfgA sNav5 0).2 = none := selectTarget_cfgA_ok
  have hpair : updateTrajectoryRun cfgA false { sNav5 with target_i := 0, trajectory_i := 0 } =
      ((selectTargetRun cfgA sNav5 0).1, none) := by
    rw [← hn]
    exact (@Prod.mk.eta _ _ (selectTargetRun cfgA sNav5 0)).symm
  obtain ⟨tr, out, hl, hd, hs⟩ := updateTrajectoryRun_ok_inv cfgA _ _ hpair
  obtain ⟨hc, _⟩ := defineCheckpointsRun_ok_inv cfgA tr.entry tr.target tr.direction out hd
  refine ⟨hn, ?_, ?_, by norm_num⟩
  · rw [hs]
    rfl
  · rw [hs]
    show out.1.length = 100
    rw [hc]
    simp [trajectoryCheckpoints]
